import Mathlib

/-!
Shallow embedding of the gnet `internal/netpoll` poller (epoll backend,
`src/internal/netpoll/epoll.go`; kqueue backend, the BSD file in
`src/unnamed/part_000`).

Syscalls are modelled as trace events; each embedded operation takes the
outcomes of the syscalls it performs as explicit inputs (an oracle) and
returns the trace of syscalls it issued together with its Go return value.
Errors are errno numbers (`Nat`) for system calls and an abstract type `ε`
for callback / job failures.
-/

namespace Netpoll

/-- errno of an interrupted syscall (`unix.EINTR`). -/
def EINTR : Nat := 4

/-- Constant `unix.EPOLL_CTL_ADD`. -/
def EPOLL_CTL_ADD : Nat := 1

/-- Constant `unix.EPOLL_CTL_DEL`. -/
def EPOLL_CTL_DEL : Nat := 2

/-- Constant `unix.EPOLL_CTL_MOD`. -/
def EPOLL_CTL_MOD : Nat := 3

/-- Constant `unix.EVFILT_READ` (BSD). -/
def EVFILT_READ : Int := -1

/-- Constant `unix.EVFILT_WRITE` (BSD). -/
def EVFILT_WRITE : Int := -2

/-- Constant `unix.EVFILT_USER` (BSD). -/
def EVFILT_USER : Int := -10

/-- Constant `unix.EV_ADD` (BSD). -/
def EV_ADD : Nat := 0x1

/-- Constant `unix.EV_CLEAR` (BSD). -/
def EV_CLEAR : Nat := 0x20

/-- Constant `unix.EV_EOF` (BSD). -/
def EV_EOF : Nat := 0x8000

/-- Constant `unix.EV_ERROR` (BSD). -/
def EV_ERROR : Nat := 0x4000

/-- Constant `unix.NOTE_TRIGGER` (BSD). -/
def NOTE_TRIGGER : Nat := 0x01000000

/-- Modelled from the spec: `EVFilterSock`, the synthetic "socket error"
filter value reported on EOF/error conditions, defined in the repository's
kqueue event-list file which is not under `src/`. The spec requires only a
filter value distinct from plain read and write; gnet uses `-0xd`. -/
def EVFilterSock : Int := -13

/-- Modelled from the spec: `InitEvents`, the fixed initial capacity of the
event list (the spec gives 128); the event-list file is not under `src/`. -/
def InitEvents : Nat := 128

/-- One syscall issued by the poller, as a trace event. -/
inductive Syscall where
  | epollCreate1
  | eventfd2
  | epollCtl (epfd : Int) (op : Nat) (fd : Int)
  | close (fd : Int)
  | write (fd : Int) (len : Nat)
  | read (fd : Int)
  | kqueueCreate
  | keventRegister (kfd : Int) (ident : Nat) (filter : Int) (flags : Nat)
  | keventTrigger (kfd : Int)
deriving DecidableEq, Repr

variable {ε : Type}

/-- A scheduled job (`internal.Job`): an opaque callable; we record an
identifier (to observe execution order) and its predetermined result
(`none` = success, `some e` = failure). -/
structure Job (ε : Type) where
  id : Nat
  result : Option ε
deriving DecidableEq, Repr

/-- Modelled from the spec: `internal.AsyncJobQueue.Push` (the queue code is
not under `src/`). Appends the job under mutual exclusion and returns the
queue together with its new length. -/
def push (q : List (Job ε)) (j : Job ε) : List (Job ε) × Nat :=
  (q ++ [j], q.length + 1)

/-- Executes a batch of jobs in order, stopping at the first failure.
Returns the ids of the jobs executed (in execution order) and the error of
the failing job, if any. -/
def runJobs : List (Job ε) → List Nat × Option ε
  | [] => ([], none)
  | j :: rest =>
    match j.result with
    | some e => ([j.id], some e)
    | none =>
      let r := runJobs rest
      (j.id :: r.1, r.2)

/-- Result of `forEach`: jobs executed, the first failure, and the queue
contents afterwards. -/
structure ForEachOut (ε : Type) where
  executed : List Nat
  err : Option ε
  queue : List (Job ε)
deriving Repr

/-- Modelled from the spec: `internal.AsyncJobQueue.ForEach` (the queue code
is not under `src/`). Atomically swaps out the current batch `q` and runs it
in FIFO order, stopping at the first failing job; jobs pushed concurrently
while the batch runs (`pd`) land in the fresh queue and are deferred to a
later cycle. -/
def forEach (q pd : List (Job ε)) : ForEachOut ε :=
  let r := runJobs q
  ⟨r.1, r.2, pd⟩

/-! ### Trigger (wake protocol) -/

/-- Embeds `Poller.Trigger` on the epoll backend (`epoll.go` lines 64-70): push the
job; if `Push` returned 1, write the fixed 8-byte buffer `b` to the wake fd
and return the write's error, otherwise do nothing and return nil.
`writeRes` is the oracle outcome of the `unix.Write` syscall, used only if
the write is issued. Returns (new queue, syscall trace, Go error). -/
def triggerEpoll (wfd : Int) (q : List (Job ε)) (j : Job ε)
    (writeRes : Option Nat) : List (Job ε) × List Syscall × Option Nat :=
  let p := push q j
  if p.2 = 1 then (p.1, [Syscall.write wfd 8], writeRes)
  else (p.1, [], none)

/-- Embeds `Poller.Trigger` on the kqueue backend (`part_000` lines 55-61): push the
job; if `Push` returned 1, issue the `wakeChanges` Kevent (user filter,
`NOTE_TRIGGER`) and return its error, otherwise do nothing and return nil. -/
def triggerKqueue (kfd : Int) (q : List (Job ε)) (j : Job ε)
    (kevRes : Option Nat) : List (Job ε) × List Syscall × Option Nat :=
  let p := push q j
  if p.2 = 1 then (p.1, [Syscall.keventTrigger kfd], kevRes)
  else (p.1, [], none)

/-! ### Polling (the reactor loop) -/

/-- One epoll event record as delivered by `unix.EpollWait`
(`Fd` and the `Events` readiness mask). -/
structure EpollEvent where
  fd : Int
  events : Nat
deriving DecidableEq, Repr

/-- One kqueue event record as delivered by `unix.Kevent`
(`Ident`, `Filter`, `Flags`). -/
structure Kevent where
  ident : Nat
  filter : Int
  flags : Nat
deriving DecidableEq, Repr

/-- Output of dispatching one batch of epoll events (`epoll.go` lines
82-91): the callback invocations made (fd, mask) in order, the number of
drains of the wake fd, whether `wakenUp` was set, and the callback error
that aborted the batch, if any. -/
structure DispatchOutE (ε : Type) where
  calls : List (Int × Nat)
  drains : Nat
  wake : Bool
  err : Option ε
deriving Repr

/-- The epoll dispatch loop (`epoll.go` lines 82-91): for each record, if
its fd differs from the wake fd invoke the callback and return on error;
otherwise set `wakenUp` and drain the wake fd with an 8-byte read. -/
def dispatchEpoll (wfd : Int) (cb : Int → Nat → Option ε) :
    List EpollEvent → DispatchOutE ε
  | [] => ⟨[], 0, false, none⟩
  | e :: rest =>
    if e.fd = wfd then
      let d := dispatchEpoll wfd cb rest
      ⟨d.calls, d.drains + 1, true, d.err⟩
    else
      match cb e.fd e.events with
      | some er => ⟨[(e.fd, e.events)], 0, false, some er⟩
      | none =>
        let d := dispatchEpoll wfd cb rest
        ⟨(e.fd, e.events) :: d.calls, d.drains, d.wake, d.err⟩

/-- The filter value handed to the callback for a kqueue record
(`part_000` lines 76-79): the record's own filter, normalized to
`EVFilterSock` when the `EV_EOF` or `EV_ERROR` flag is set. -/
def keventOutFilter (e : Kevent) : Int :=
  if e.flags &&& EV_EOF ≠ 0 ∨ e.flags &&& EV_ERROR ≠ 0 then EVFilterSock
  else e.filter

/-- Output of dispatching one batch of kqueue events (`part_000` lines
74-86). -/
structure DispatchOutK (ε : Type) where
  calls : List (Nat × Int)
  wake : Bool
  err : Option ε
deriving Repr

/-- The kqueue dispatch loop (`part_000` lines 74-86): for each record, if
its identifier is non-zero invoke the callback with the (possibly
normalized) filter and return on error; a zero identifier is the user
filter's wake notification and only sets `wakenUp`. -/
def dispatchKqueue (cb : Nat → Int → Option ε) :
    List Kevent → DispatchOutK ε
  | [] => ⟨[], false, none⟩
  | e :: rest =>
    if e.ident ≠ 0 then
      match cb e.ident (keventOutFilter e) with
      | some er => ⟨[(e.ident, keventOutFilter e)], false, some er⟩
      | none =>
        let d := dispatchKqueue cb rest
        ⟨(e.ident, keventOutFilter e) :: d.calls, d.wake, d.err⟩
    else
      let d := dispatchKqueue cb rest
      ⟨d.calls, true, d.err⟩

/-- Observable outcome of one iteration of `Polling` (epoll): callback
invocations, wake-fd drains, executed job ids, whether `ForEach` ran, the
value `Polling` returns (`some e`) or `none` to continue, the event-list
capacity for the next wait call, and the job queue afterwards. -/
structure IterOutE (ε : Type) where
  dispatched : List (Int × Nat)
  drains : Nat
  executed : List Nat
  forEachRan : Bool
  result : Option ε
  newSize : Nat
  newQueue : List (Job ε)
deriving Repr

/-- Observable outcome of one iteration of `Polling` (kqueue). -/
structure IterOutK (ε : Type) where
  dispatched : List (Nat × Int)
  executed : List Nat
  forEachRan : Bool
  result : Option ε
  newSize : Nat
  newQueue : List (Job ε)
deriving Repr

/-- One iteration of `Poller.Polling` on the epoll backend (`epoll.go`
lines 76-101). `wait` is the oracle outcome of `unix.EpollWait`: an errno,
or the batch of records written into the event list (`n` = its length,
which never exceeds the capacity `size`). On a wait error the code either
logs and continues (non-EINTR) or falls through with `n = -1` (EINTR);
both dispatch nothing, run no jobs and leave the capacity unchanged, since
`wakenUp` is false whenever the wait call runs and `-1 ≠ el.size`. On
success the batch is dispatched; a callback error returns immediately;
otherwise, if a wake record was seen, the job queue is drained via
`ForEach` (`pd` = jobs pushed while the batch runs) and a job error
returns; finally the capacity doubles iff `n` equals it. -/
def pollIterEpoll (wfd : Int) (size : Nat) (wait : Except Nat (List EpollEvent))
    (cb : Int → Nat → Option ε) (q pd : List (Job ε)) : IterOutE ε :=
  match wait with
  | .error _ => ⟨[], 0, [], false, none, size, q⟩
  | .ok evs =>
    let d := dispatchEpoll wfd cb evs
    match d.err with
    | some e => ⟨d.calls, d.drains, [], false, some e, size, q⟩
    | none =>
      if d.wake then
        let f := forEach q pd
        match f.err with
        | some e => ⟨d.calls, d.drains, f.executed, true, some e, size, f.queue⟩
        | none =>
          ⟨d.calls, d.drains, f.executed, true, none,
            if evs.length = size then 2 * size else size, f.queue⟩
      else
        ⟨d.calls, d.drains, [], false, none,
          if evs.length = size then 2 * size else size, q⟩

/-- One iteration of `Poller.Polling` on the kqueue backend (`part_000`
lines 67-96); same shape as `pollIterEpoll` with the zero identifier as the
wake sentinel and no wake fd to drain. -/
def pollIterKqueue (size : Nat) (wait : Except Nat (List Kevent))
    (cb : Nat → Int → Option ε) (q pd : List (Job ε)) : IterOutK ε :=
  match wait with
  | .error _ => ⟨[], [], false, none, size, q⟩
  | .ok evs =>
    let d := dispatchKqueue cb evs
    match d.err with
    | some e => ⟨d.calls, [], false, some e, size, q⟩
    | none =>
      if d.wake then
        let f := forEach q pd
        match f.err with
        | some e => ⟨d.calls, f.executed, true, some e, size, f.queue⟩
        | none =>
          ⟨d.calls, f.executed, true, none,
            if evs.length = size then 2 * size else size, f.queue⟩
      else
        ⟨d.calls, [], false, none,
          if evs.length = size then 2 * size else size, q⟩

/-- One entry of a polling schedule (epoll): the oracle outcome of this
iteration's wait call, and the jobs pushed concurrently while this
iteration's `ForEach` (if any) runs. -/
structure SchedE (ε : Type) where
  wait : Except Nat (List EpollEvent)
  pushedDuring : List (Job ε)

/-- One entry of a polling schedule (kqueue). -/
structure SchedK (ε : Type) where
  wait : Except Nat (List Kevent)
  pushedDuring : List (Job ε)

/-- Accumulated observables of a (finite prefix of a) `Polling` run
(epoll): every callback invocation, every executed job id, the value
returned (`none` while still looping), and the final capacity and queue. -/
structure LoopOutE (ε : Type) where
  dispatched : List (Int × Nat)
  executed : List Nat
  result : Option ε
  finalSize : Nat
  finalQueue : List (Job ε)
deriving Repr

/-- Accumulated observables of a `Polling` run (kqueue). -/
structure LoopOutK (ε : Type) where
  dispatched : List (Nat × Int)
  executed : List Nat
  result : Option ε
  finalSize : Nat
  finalQueue : List (Job ε)
deriving Repr

/-- Embeds `Poller.Polling` on the epoll backend (`epoll.go` lines 73-102), run
against a finite schedule of wait-call outcomes: iterate `pollIterEpoll`,
stopping with the first `some` result; an exhausted schedule means the
loop is still blocked in the next wait call (`result = none`). -/
def pollingEpoll (wfd : Int) (cb : Int → Nat → Option ε) :
    List (SchedE ε) → Nat → List (Job ε) → LoopOutE ε
  | [], size, q => ⟨[], [], none, size, q⟩
  | s :: rest, size, q =>
    let it := pollIterEpoll wfd size s.wait cb q s.pushedDuring
    match it.result with
    | some e => ⟨it.dispatched, it.executed, some e, it.newSize, it.newQueue⟩
    | none =>
      let out := pollingEpoll wfd cb rest it.newSize it.newQueue
      ⟨it.dispatched ++ out.dispatched, it.executed ++ out.executed,
        out.result, out.finalSize, out.finalQueue⟩

/-- Embeds `Poller.Polling` on the kqueue backend (`part_000` lines 64-97), run
against a finite schedule of wait-call outcomes. -/
def pollingKqueue (cb : Nat → Int → Option ε) :
    List (SchedK ε) → Nat → List (Job ε) → LoopOutK ε
  | [], size, q => ⟨[], [], none, size, q⟩
  | s :: rest, size, q =>
    let it := pollIterKqueue size s.wait cb q s.pushedDuring
    match it.result with
    | some e => ⟨it.dispatched, it.executed, some e, it.newSize, it.newQueue⟩
    | none =>
      let out := pollingKqueue cb rest it.newSize it.newQueue
      ⟨it.dispatched ++ out.dispatched, it.executed ++ out.executed,
        out.result, out.finalSize, out.finalQueue⟩

/-! ### Lifecycle: OpenPoller, Close, Delete -/

/-- Embeds `OpenPoller` on the epoll backend (`epoll.go` lines 27-46).
Oracle inputs: the outcome of `EpollCreate1`, of the `eventfd2` syscall,
and of the `EpollCtl` ADD registering the wake fd. Returns the syscall
trace and either the pair (epoll fd, wake fd) or the error. Note the
source closes `epollFD` when `eventfd2` fails, but closes nothing when the
`AddRead` registration fails. -/
def openPollerEpoll (epollRes : Except Nat Int) (eventfdRes : Except Nat Int)
    (addReadRes : Option Nat) : List Syscall × Except Nat (Int × Int) :=
  match epollRes with
  | .error e => ([Syscall.epollCreate1], .error e)
  | .ok epfd =>
    match eventfdRes with
    | .error e =>
      ([Syscall.epollCreate1, Syscall.eventfd2, Syscall.close epfd], .error e)
    | .ok wfd =>
      match addReadRes with
      | some e =>
        ([Syscall.epollCreate1, Syscall.eventfd2,
          Syscall.epollCtl epfd EPOLL_CTL_ADD wfd], .error e)
      | none =>
        ([Syscall.epollCreate1, Syscall.eventfd2,
          Syscall.epollCtl epfd EPOLL_CTL_ADD wfd], .ok (epfd, wfd))

/-- Embeds `OpenPoller` on the kqueue backend (`part_000` lines 24-41).
Oracle inputs: the outcome of `unix.Kqueue()` and of the `Kevent`
registering the user filter. The source closes nothing when the user
filter registration fails. -/
def openPollerKqueue (kqRes : Except Nat Int) (kevRes : Option Nat) :
    List Syscall × Except Nat Int :=
  match kqRes with
  | .error e => ([Syscall.kqueueCreate], .error e)
  | .ok kfd =>
    match kevRes with
    | some e =>
      ([Syscall.kqueueCreate,
        Syscall.keventRegister kfd 0 EVFILT_USER (EV_ADD ||| EV_CLEAR)],
       .error e)
    | none =>
      ([Syscall.kqueueCreate,
        Syscall.keventRegister kfd 0 EVFILT_USER (EV_ADD ||| EV_CLEAR)],
       .ok kfd)

/-- Embeds `Poller.Close` on the epoll backend (`epoll.go` lines 49-54): close the
wake fd; on error return it (without touching the epoll fd), else close the
epoll fd and return that result. -/
def closeEpoll (wfd fd : Int) (closeW closeF : Option Nat) :
    List Syscall × Option Nat :=
  match closeW with
  | some e => ([Syscall.close wfd], some e)
  | none => ([Syscall.close wfd, Syscall.close fd], closeF)

/-- Embeds `Poller.Close` on the kqueue backend (`part_000` lines 44-46): close
the kqueue fd only. -/
def closeKqueue (fd : Int) (closeF : Option Nat) : List Syscall × Option Nat :=
  ([Syscall.close fd], closeF)

/-- Embeds `Poller.Delete` on the epoll backend (`epoll.go` lines 136-138): one
`EPOLL_CTL_DEL` on the epoll fd, returning the syscall's result. -/
def deleteEpoll (epfd fd : Int) (ctlRes : Option Nat) :
    List Syscall × Option Nat :=
  ([Syscall.epollCtl epfd EPOLL_CTL_DEL fd], ctlRes)

/-- Embeds `Poller.Delete` on the kqueue backend (`part_000` lines 147-149): the
body is `return nil` — no syscall, no state change, always success. The
poller state `q` is returned untouched. -/
def deleteKqueue (fd : Int) (q : List (Job ε)) :
    List (Job ε) × List Syscall × Option Nat :=
  (q, [], none)

/-! ### Claim C1 -/

/-- C1: `Trigger(job)` pushes the job onto the poller's job queue and issues
the wake syscall (8-byte write on epoll, user-filter trigger Kevent on
kqueue) if and only if `Push` returned exactly 1, which happens exactly when
the queue was empty; when `Push` returns any other value, no syscall is
issued and `Trigger` returns success. -/
theorem trigger_wake_iff_push_one (wfd kfd : Int) (q : List (Job ε))
    (j : Job ε) (writeRes kevRes : Option Nat) :
    ((push q j).2 = 1 ↔ q = []) ∧
    (triggerEpoll wfd q j writeRes).1 = q ++ [j] ∧
    (triggerEpoll wfd q j writeRes).2.1 =
      (if (push q j).2 = 1 then [Syscall.write wfd 8] else []) ∧
    (triggerEpoll wfd q j writeRes).2.2 =
      (if (push q j).2 = 1 then writeRes else none) ∧
    (triggerKqueue kfd q j kevRes).1 = q ++ [j] ∧
    (triggerKqueue kfd q j kevRes).2.1 =
      (if (push q j).2 = 1 then [Syscall.keventTrigger kfd] else []) ∧
    (triggerKqueue kfd q j kevRes).2.2 =
      (if (push q j).2 = 1 then kevRes else none) := by
  refine ⟨?_, ?_, ?_, ?_, ?_, ?_, ?_⟩ <;>
    simp [push, triggerEpoll, triggerKqueue, List.length_eq_zero] <;>
    by_cases h : q = [] <;> simp [h]

/-- Witness for C1: a push onto an empty queue reports length 1 and issues
exactly the wake syscall; a push onto a non-empty queue issues no syscall
and returns success. -/
theorem trigger_wake_iff_push_one_witness :
    ((push (ε := Nat) [] ⟨1, none⟩).2 = 1 ↔ ([] : List (Job Nat)) = []) ∧
    (triggerEpoll (ε := Nat) 4 [] ⟨1, none⟩ none).2.1 =
      [Syscall.write 4 8] ∧
    (triggerEpoll (ε := Nat) 4 [⟨1, none⟩] ⟨2, none⟩ (some 9)).2.1 = [] ∧
    (triggerEpoll (ε := Nat) 4 [⟨1, none⟩] ⟨2, none⟩ (some 9)).2.2 = none ∧
    (triggerKqueue (ε := Nat) 3 [] ⟨1, none⟩ none).2.1 =
      [Syscall.keventTrigger 3] := by
  have h0 := trigger_wake_iff_push_one (ε := Nat) 4 3 [] ⟨1, none⟩ none none
  have h1 := trigger_wake_iff_push_one (ε := Nat) 4 3 [⟨1, none⟩] ⟨2, none⟩
      (some 9) (some 9)
  refine ⟨h0.1, ?_, ?_, ?_, ?_⟩
  · rw [h0.2.2.1]; simp [push]
  · rw [h1.2.2.1]; simp [push]
  · rw [h1.2.2.2.1]; simp [push]
  · rw [h0.2.2.2.2.2.1]; simp [push]


/-! ### Helper lemmas on dispatch and job execution -/

/-- The callback invocations a fully successful epoll dispatch makes: every
record whose fd is not the wake fd, in order. -/
def epollCalls (wfd : Int) (evs : List EpollEvent) : List (Int × Nat) :=
  (evs.filter fun e => decide (e.fd ≠ wfd)).map fun e => (e.fd, e.events)

/-- The number of wake records in an epoll batch (each causes one drain). -/
def wakeDrains (wfd : Int) (evs : List EpollEvent) : Nat :=
  (evs.filter fun e => decide (e.fd = wfd)).length

/-- Whether an epoll batch contains a wake record. -/
def wakeSeen (wfd : Int) (evs : List EpollEvent) : Bool :=
  evs.any fun e => decide (e.fd = wfd)

/-- The callback invocations a fully successful kqueue dispatch makes:
every record with non-zero identifier, with its normalized filter. -/
def kqueueCalls (evs : List Kevent) : List (Nat × Int) :=
  (evs.filter fun e => decide (e.ident ≠ 0)).map fun e =>
    (e.ident, keventOutFilter e)

/-- Whether a kqueue batch contains a wake (zero-identifier) record. -/
def kqWakeSeen (evs : List Kevent) : Bool :=
  evs.any fun e => decide (e.ident = 0)

theorem dispatchEpoll_ok (wfd : Int) (cb : Int → Nat → Option ε)
    (evs : List EpollEvent)
    (h : ∀ e ∈ evs, e.fd ≠ wfd → cb e.fd e.events = none) :
    dispatchEpoll wfd cb evs =
      ⟨epollCalls wfd evs, wakeDrains wfd evs, wakeSeen wfd evs, none⟩ := by
  induction evs with
  | nil => rfl
  | cons e rest ih =>
    have hrest : ∀ x ∈ rest, x.fd ≠ wfd → cb x.fd x.events = none :=
      fun x hx => h x (List.mem_cons_of_mem _ hx)
    by_cases hfd : e.fd = wfd
    · simp [dispatchEpoll, hfd, ih hrest, epollCalls, wakeDrains, wakeSeen]
    · have hcb := h e (List.mem_cons_self _ _) hfd
      simp [dispatchEpoll, hfd, hcb, ih hrest, epollCalls, wakeDrains, wakeSeen]

theorem dispatchEpoll_err (wfd : Int) (cb : Int → Nat → Option ε)
    (pre : List EpollEvent) (ev : EpollEvent) (post : List EpollEvent) (er : ε)
    (hpre : ∀ e ∈ pre, e.fd ≠ wfd → cb e.fd e.events = none)
    (hev : ev.fd ≠ wfd) (herr : cb ev.fd ev.events = some er) :
    dispatchEpoll wfd cb (pre ++ ev :: post) =
      ⟨epollCalls wfd pre ++ [(ev.fd, ev.events)], wakeDrains wfd pre,
        wakeSeen wfd pre, some er⟩ := by
  induction pre with
  | nil => simp [dispatchEpoll, hev, herr, epollCalls, wakeDrains, wakeSeen]
  | cons e rest ih =>
    have hrest : ∀ x ∈ rest, x.fd ≠ wfd → cb x.fd x.events = none :=
      fun x hx => hpre x (List.mem_cons_of_mem _ hx)
    by_cases hfd : e.fd = wfd
    · simp [dispatchEpoll, hfd, ih hrest, epollCalls, wakeDrains, wakeSeen]
    · have hcb := hpre e (List.mem_cons_self _ _) hfd
      simp [dispatchEpoll, hfd, hcb, ih hrest, epollCalls, wakeDrains, wakeSeen]

theorem dispatchEpoll_calls_ne_wfd (wfd : Int) (cb : Int → Nat → Option ε)
    (evs : List EpollEvent) :
    ∀ c ∈ (dispatchEpoll wfd cb evs).calls, c.1 ≠ wfd := by
  induction evs with
  | nil => simp [dispatchEpoll]
  | cons e rest ih =>
    by_cases hfd : e.fd = wfd
    · simpa [dispatchEpoll, hfd] using ih
    · cases hcb : cb e.fd e.events with
      | some er => simp [dispatchEpoll, hfd, hcb]
      | none =>
        intro c hc
        rcases (by simpa [dispatchEpoll, hfd, hcb] using hc) with h | h
        · simpa [h] using hfd
        · exact ih c h

theorem dispatchEpoll_err_from_callback (wfd : Int)
    (cb : Int → Nat → Option ε) (evs : List EpollEvent) (er : ε)
    (h : (dispatchEpoll wfd cb evs).err = some er) :
    ∃ c ∈ (dispatchEpoll wfd cb evs).calls, cb c.1 c.2 = some er := by
  induction evs with
  | nil => simp [dispatchEpoll] at h
  | cons e rest ih =>
    by_cases hfd : e.fd = wfd
    · simp only [dispatchEpoll, if_pos hfd] at h ⊢
      exact ih h
    · cases hcb : cb e.fd e.events with
      | some er2 =>
        have he : er2 = er := by simpa [dispatchEpoll, hfd, hcb] using h
        subst he
        simp [dispatchEpoll, hfd, hcb]
      | none =>
        simp only [dispatchEpoll, if_neg hfd, hcb] at h ⊢
        obtain ⟨c, hc, hcbc⟩ := ih h
        exact ⟨c, List.mem_cons_of_mem _ hc, hcbc⟩

theorem dispatchKqueue_ok (cb : Nat → Int → Option ε) (evs : List Kevent)
    (h : ∀ e ∈ evs, e.ident ≠ 0 → cb e.ident (keventOutFilter e) = none) :
    dispatchKqueue cb evs = ⟨kqueueCalls evs, kqWakeSeen evs, none⟩ := by
  induction evs with
  | nil => rfl
  | cons e rest ih =>
    have hrest : ∀ x ∈ rest, x.ident ≠ 0 → cb x.ident (keventOutFilter x) = none :=
      fun x hx => h x (List.mem_cons_of_mem _ hx)
    by_cases hid : e.ident = 0
    · simp [dispatchKqueue, hid, ih hrest, kqueueCalls, kqWakeSeen]
    · have hcb := h e (List.mem_cons_self _ _) hid
      simp [dispatchKqueue, hid, hcb, ih hrest, kqueueCalls, kqWakeSeen]

theorem dispatchKqueue_err (cb : Nat → Int → Option ε) (pre : List Kevent)
    (ev : Kevent) (post : List Kevent) (er : ε)
    (hpre : ∀ e ∈ pre, e.ident ≠ 0 → cb e.ident (keventOutFilter e) = none)
    (hev : ev.ident ≠ 0) (herr : cb ev.ident (keventOutFilter ev) = some er) :
    dispatchKqueue cb (pre ++ ev :: post) =
      ⟨kqueueCalls pre ++ [(ev.ident, keventOutFilter ev)], kqWakeSeen pre,
        some er⟩ := by
  induction pre with
  | nil => simp [dispatchKqueue, hev, herr, kqueueCalls, kqWakeSeen]
  | cons e rest ih =>
    have hrest : ∀ x ∈ rest, x.ident ≠ 0 → cb x.ident (keventOutFilter x) = none :=
      fun x hx => hpre x (List.mem_cons_of_mem _ hx)
    by_cases hid : e.ident = 0
    · simp [dispatchKqueue, hid, ih hrest, kqueueCalls, kqWakeSeen]
    · have hcb := hpre e (List.mem_cons_self _ _) hid
      simp [dispatchKqueue, hid, hcb, ih hrest, kqueueCalls, kqWakeSeen]

theorem dispatchKqueue_calls_ne_zero (cb : Nat → Int → Option ε)
    (evs : List Kevent) :
    ∀ c ∈ (dispatchKqueue cb evs).calls, c.1 ≠ 0 := by
  induction evs with
  | nil => simp [dispatchKqueue]
  | cons e rest ih =>
    by_cases hid : e.ident = 0
    · simpa [dispatchKqueue, hid] using ih
    · cases hcb : cb e.ident (keventOutFilter e) with
      | some er => simp [dispatchKqueue, hid, hcb]
      | none =>
        intro c hc
        rcases (by simpa [dispatchKqueue, hid, hcb] using hc) with h | h
        · simpa [h] using hid
        · exact ih c h

theorem dispatchKqueue_err_from_callback (cb : Nat → Int → Option ε)
    (evs : List Kevent) (er : ε)
    (h : (dispatchKqueue cb evs).err = some er) :
    ∃ c ∈ (dispatchKqueue cb evs).calls, cb c.1 c.2 = some er := by
  induction evs with
  | nil => simp [dispatchKqueue] at h
  | cons e rest ih =>
    by_cases hid : e.ident = 0
    · have hh : (dispatchKqueue cb (e :: rest)).err = (dispatchKqueue cb rest).err := by
        simp [dispatchKqueue, hid]
      have hc : (dispatchKqueue cb (e :: rest)).calls = (dispatchKqueue cb rest).calls := by
        simp [dispatchKqueue, hid]
      rw [hh] at h
      rw [hc]
      exact ih h
    · cases hcb : cb e.ident (keventOutFilter e) with
      | some er2 =>
        have he : er2 = er := by simpa [dispatchKqueue, hid, hcb] using h
        subst he
        simp [dispatchKqueue, hid, hcb]
      | none =>
        have hh : (dispatchKqueue cb (e :: rest)).err = (dispatchKqueue cb rest).err := by
          simp [dispatchKqueue, hid, hcb]
        have hc : (dispatchKqueue cb (e :: rest)).calls =
            (e.ident, keventOutFilter e) :: (dispatchKqueue cb rest).calls := by
          simp [dispatchKqueue, hid, hcb]
        rw [hh] at h
        rw [hc]
        obtain ⟨c, hcm, hcbc⟩ := ih h
        exact ⟨c, List.mem_cons_of_mem _ hcm, hcbc⟩

theorem runJobs_ok (q : List (Job ε)) (h : ∀ j ∈ q, j.result = none) :
    runJobs q = (q.map Job.id, none) := by
  induction q with
  | nil => rfl
  | cons j rest ih =>
    have hj := h j (List.mem_cons_self _ _)
    have hrest : ∀ x ∈ rest, x.result = none :=
      fun x hx => h x (List.mem_cons_of_mem _ hx)
    simp [runJobs, hj, ih hrest]

theorem runJobs_err (as : List (Job ε)) (b : Job ε) (bs : List (Job ε)) (e : ε)
    (ha : ∀ j ∈ as, j.result = none) (hb : b.result = some e) :
    runJobs (as ++ b :: bs) = (as.map Job.id ++ [b.id], some e) := by
  induction as with
  | nil => simp [runJobs, hb]
  | cons a rest ih =>
    have haa := ha a (List.mem_cons_self _ _)
    have hrest : ∀ x ∈ rest, x.result = none :=
      fun x hx => ha x (List.mem_cons_of_mem _ hx)
    simp [runJobs, haa, ih hrest]

theorem runJobs_err_from_job (q : List (Job ε)) (e : ε)
    (h : (runJobs q).2 = some e) : ∃ j ∈ q, j.result = some e := by
  induction q with
  | nil => simp [runJobs] at h
  | cons j rest ih =>
    cases hj : j.result with
    | some e2 =>
      simp [runJobs, hj] at h
      exact ⟨j, List.mem_cons_self _ _, by rw [hj, h]⟩
    | none =>
      simp only [runJobs, hj] at h
      obtain ⟨x, hx, hxr⟩ := ih h
      exact ⟨x, List.mem_cons_of_mem _ hx, hxr⟩

/-! ### Claim C2 -/

/-- C2: on both backends, if the callback returns an error on some event
record of the batch (all earlier dispatched records having succeeded),
`Polling` returns that error immediately: the dispatched calls stop at the
failing record (nothing after it in the batch is dispatched), the job
queue's `ForEach` is not invoked in that iteration even if a wake record
occurred earlier in the batch, no job runs, the capacity and queue are
left as they were, and the loop never resumes (the remaining schedule is
ignored). -/
theorem polling_callback_error_terminates
    (wfd : Int) (size sizeK : Nat) (q pd qK pdK : List (Job ε))
    (restE : List (SchedE ε)) (restK : List (SchedK ε))
    (cbE : Int → Nat → Option ε) (cbK : Nat → Int → Option ε)
    (pre : List EpollEvent) (ev : EpollEvent) (post : List EpollEvent)
    (preK : List Kevent) (evK : Kevent) (postK : List Kevent) (er erK : ε)
    (hpre : ∀ e ∈ pre, e.fd ≠ wfd → cbE e.fd e.events = none)
    (hev : ev.fd ≠ wfd) (herr : cbE ev.fd ev.events = some er)
    (hpreK : ∀ e ∈ preK, e.ident ≠ 0 → cbK e.ident (keventOutFilter e) = none)
    (hevK : evK.ident ≠ 0)
    (herrK : cbK evK.ident (keventOutFilter evK) = some erK) :
    pollingEpoll wfd cbE (⟨.ok (pre ++ ev :: post), pd⟩ :: restE) size q =
      ⟨epollCalls wfd pre ++ [(ev.fd, ev.events)], [], some er, size, q⟩ ∧
    (pollIterEpoll wfd size (.ok (pre ++ ev :: post)) cbE q pd).forEachRan
      = false ∧
    pollingKqueue cbK (⟨.ok (preK ++ evK :: postK), pdK⟩ :: restK) sizeK qK =
      ⟨kqueueCalls preK ++ [(evK.ident, keventOutFilter evK)], [],
        some erK, sizeK, qK⟩ ∧
    (pollIterKqueue sizeK (.ok (preK ++ evK :: postK)) cbK qK pdK).forEachRan
      = false := by
  have hd := dispatchEpoll_err wfd cbE pre ev post er hpre hev herr
  have hdK := dispatchKqueue_err cbK preK evK postK erK hpreK hevK herrK
  refine ⟨?_, ?_, ?_, ?_⟩
  · simp [pollingEpoll, pollIterEpoll, hd]
  · simp [pollIterEpoll, hd]
  · simp [pollingKqueue, pollIterKqueue, hdK]
  · simp [pollIterKqueue, hdK]

/-- Witness for C2 at a concrete schedule: the batch holds a wake record,
one successful record, the failing record and one more record; a second
schedule entry shows the loop does not resume. -/
theorem polling_callback_error_terminates_witness :
    pollingEpoll (ε := Nat) 9 (fun fd _ => if fd = 7 then some 3 else none)
        (⟨Except.ok [⟨9, 1⟩, ⟨5, 1⟩, ⟨7, 2⟩, ⟨8, 1⟩], []⟩ ::
          [⟨Except.ok [⟨5, 1⟩], []⟩]) 128 [] =
      ⟨[(5, 1), (7, 2)], [], some 3, 128, []⟩ ∧
    pollingKqueue (ε := Nat) (fun fd _ => if fd = 7 then some 4 else none)
        (⟨Except.ok [⟨0, -1, 0⟩, ⟨5, -1, 0⟩, ⟨7, -1, 0⟩, ⟨8, -1, 0⟩], []⟩ ::
          []) 128 [] =
      ⟨[(5, -1), (7, -1)], [], some 4, 128, []⟩ := by
  have h := polling_callback_error_terminates (ε := Nat) 9 128 128 [] [] [] []
      [⟨Except.ok [⟨5, 1⟩], []⟩] []
      (fun fd _ => if fd = 7 then some 3 else none)
      (fun fd _ => if fd = 7 then some 4 else none)
      [⟨9, 1⟩, ⟨5, 1⟩] ⟨7, 2⟩ [⟨8, 1⟩]
      [⟨0, -1, 0⟩, ⟨5, -1, 0⟩] ⟨7, -1, 0⟩ [⟨8, -1, 0⟩] 3 4
      (by decide) (by decide) (by decide) (by decide) (by decide) (by decide)
  exact ⟨by simpa [epollCalls] using h.1,
    by simpa [kqueueCalls, keventOutFilter, EV_EOF, EV_ERROR] using h.2.2.1⟩

/-! ### Claim C4 -/

/-- C4: the growth law of the event list. A wait error leaves the capacity
unchanged; an iteration that continues the loop doubles the capacity
exactly when the wait call returned as many records as the capacity, and
leaves it unchanged otherwise; on both backends the capacity never
shrinks. -/
theorem eventList_growth_law (wfd : Int) (size : Nat) (e0 : Nat)
    (wait : Except Nat (List EpollEvent)) (evs : List EpollEvent)
    (waitK : Except Nat (List Kevent)) (evsK : List Kevent)
    (cbE : Int → Nat → Option ε) (cbK : Nat → Int → Option ε)
    (q pd : List (Job ε)) :
    (pollIterEpoll wfd size (.error e0) cbE q pd).newSize = size ∧
    ((pollIterEpoll wfd size (.ok evs) cbE q pd).result = none →
      (pollIterEpoll wfd size (.ok evs) cbE q pd).newSize =
        (if evs.length = size then 2 * size else size)) ∧
    size ≤ (pollIterEpoll wfd size wait cbE q pd).newSize ∧
    (pollIterKqueue size (.error e0) cbK q pd).newSize = size ∧
    ((pollIterKqueue size (.ok evsK) cbK q pd).result = none →
      (pollIterKqueue size (.ok evsK) cbK q pd).newSize =
        (if evsK.length = size then 2 * size else size)) ∧
    size ≤ (pollIterKqueue size waitK cbK q pd).newSize := by
  refine ⟨rfl, ?_, ?_, rfl, ?_, ?_⟩
  · intro h
    cases hd : (dispatchEpoll wfd cbE evs).err with
    | some e => simp [pollIterEpoll, hd] at h
    | none =>
      by_cases hw : (dispatchEpoll wfd cbE evs).wake
      · cases hf : (forEach q pd).err with
        | some e => simp [pollIterEpoll, hd, hw, hf] at h
        | none => simp [pollIterEpoll, hd, hw, hf]
      · simp [pollIterEpoll, hd, hw]
  · cases wait with
    | error e1 => simp [pollIterEpoll]
    | ok evs2 =>
      cases hd : (dispatchEpoll wfd cbE evs2).err with
      | some e => simp [pollIterEpoll, hd]
      | none =>
        by_cases hw : (dispatchEpoll wfd cbE evs2).wake
        · cases hf : (forEach q pd).err with
          | some e => simp [pollIterEpoll, hd, hw, hf]
          | none =>
            have hb : size ≤ (if evs2.length = size then 2 * size else size) := by
              split <;> omega
            simpa [pollIterEpoll, hd, hw, hf] using hb
        · have hb : size ≤ (if evs2.length = size then 2 * size else size) := by
            split <;> omega
          simpa [pollIterEpoll, hd, hw] using hb
  · intro h
    cases hd : (dispatchKqueue cbK evsK).err with
    | some e => simp [pollIterKqueue, hd] at h
    | none =>
      by_cases hw : (dispatchKqueue cbK evsK).wake
      · cases hf : (forEach q pd).err with
        | some e => simp [pollIterKqueue, hd, hw, hf] at h
        | none => simp [pollIterKqueue, hd, hw, hf]
      · simp [pollIterKqueue, hd, hw]
  · cases waitK with
    | error e1 => simp [pollIterKqueue]
    | ok evs2 =>
      cases hd : (dispatchKqueue cbK evs2).err with
      | some e => simp [pollIterKqueue, hd]
      | none =>
        by_cases hw : (dispatchKqueue cbK evs2).wake
        · cases hf : (forEach q pd).err with
          | some e => simp [pollIterKqueue, hd, hw, hf]
          | none =>
            have hb : size ≤ (if evs2.length = size then 2 * size else size) := by
              split <;> omega
            simpa [pollIterKqueue, hd, hw, hf] using hb
        · have hb : size ≤ (if evs2.length = size then 2 * size else size) := by
            split <;> omega
          simpa [pollIterKqueue, hd, hw] using hb

/-- Witness for C4 at concrete iterations: a saturated batch (1 record,
capacity 1) doubles the capacity to 2 on both backends; a wait error keeps
capacity 1. -/
theorem eventList_growth_law_witness :
    (pollIterEpoll (ε := Nat) 9 1 (.error 4) (fun _ _ => none) [] []).newSize
      = 1 ∧
    (pollIterEpoll (ε := Nat) 9 1 (.ok [⟨5, 1⟩]) (fun _ _ => none) []
      []).newSize = 2 ∧
    (pollIterKqueue (ε := Nat) 1 (.ok [⟨5, -1, 0⟩]) (fun _ _ => none) []
      []).newSize = 2 := by
  have h := eventList_growth_law (ε := Nat) 9 1 4 (.error 4) [⟨5, 1⟩]
      (.error 4) [⟨5, -1, 0⟩] (fun _ _ => none) (fun _ _ => none) [] []
  refine ⟨h.1, ?_, ?_⟩
  · simpa using h.2.1 (by decide)
  · simpa using h.2.2.2.2.1 (by decide)

/-! ### Claim C5 -/

/-- C5: a batch drained by `ForEach` executes strictly in push (FIFO)
order; if a job fails, execution stops at that job, its error is returned
and no later job of the batch runs; jobs pushed while the batch executes
end up in the fresh queue, deferred to a later cycle, rather than running
in the same batch. -/
theorem forEach_fifo_stops_at_failure (q pd : List (Job ε))
    (as bs : List (Job ε)) (b : Job ε) (e : ε)
    (hq : ∀ j ∈ q, j.result = none)
    (ha : ∀ j ∈ as, j.result = none) (hb : b.result = some e) :
    forEach q pd = ⟨q.map Job.id, none, pd⟩ ∧
    forEach (as ++ b :: bs) pd = ⟨as.map Job.id ++ [b.id], some e, pd⟩ := by
  constructor
  · simp [forEach, runJobs_ok q hq]
  · simp [forEach, runJobs_err as b bs e ha hb]

/-- Witness for C5: batch `[A, B, C]` with ids 1, 2, 3 where B fails with
error 5 executes only A and B; a pushed-during job (id 9) is deferred. -/
theorem forEach_fifo_stops_at_failure_witness :
    forEach (ε := Nat) [⟨1, none⟩, ⟨2, none⟩, ⟨3, none⟩] [⟨9, none⟩] =
      ⟨[1, 2, 3], none, [⟨9, none⟩]⟩ ∧
    forEach (ε := Nat) [⟨1, none⟩, ⟨2, some 5⟩, ⟨3, none⟩] [⟨9, none⟩] =
      ⟨[1, 2], some 5, [⟨9, none⟩]⟩ := by
  have h := forEach_fifo_stops_at_failure (ε := Nat)
      [⟨1, none⟩, ⟨2, none⟩, ⟨3, none⟩] [⟨9, none⟩]
      [⟨1, none⟩] [⟨3, none⟩] ⟨2, some 5⟩ 5
      (by decide) (by decide) (by decide)
  exact ⟨h.1, by simpa using h.2⟩

/-! ### Helper lemmas for claim C6 -/

theorem pollingEpoll_all_errors (wfd : Int) (cb : Int → Nat → Option ε)
    (sched : List (SchedE ε)) (size : Nat) (q : List (Job ε))
    (h : ∀ s ∈ sched, ∃ e1, s.wait = Except.error e1) :
    pollingEpoll wfd cb sched size q = ⟨[], [], none, size, q⟩ := by
  induction sched with
  | nil => rfl
  | cons s rest ih =>
    obtain ⟨e1, he⟩ := h s (List.mem_cons_self _ _)
    have hrest : ∀ x ∈ rest, ∃ e1, x.wait = Except.error e1 :=
      fun x hx => h x (List.mem_cons_of_mem _ hx)
    simp [pollingEpoll, he, pollIterEpoll, ih hrest]

theorem pollingKqueue_all_errors (cb : Nat → Int → Option ε)
    (sched : List (SchedK ε)) (size : Nat) (q : List (Job ε))
    (h : ∀ s ∈ sched, ∃ e1, s.wait = Except.error e1) :
    pollingKqueue cb sched size q = ⟨[], [], none, size, q⟩ := by
  induction sched with
  | nil => rfl
  | cons s rest ih =>
    obtain ⟨e1, he⟩ := h s (List.mem_cons_self _ _)
    have hrest : ∀ x ∈ rest, ∃ e1, x.wait = Except.error e1 :=
      fun x hx => h x (List.mem_cons_of_mem _ hx)
    simp [pollingKqueue, he, pollIterKqueue, ih hrest]

theorem pollIterEpoll_err_provenance (wfd : Int) (size : Nat)
    (wait : Except Nat (List EpollEvent)) (cb : Int → Nat → Option ε)
    (q pd : List (Job ε)) (er : ε)
    (h : (pollIterEpoll wfd size wait cb q pd).result = some er) :
    (∃ c ∈ (pollIterEpoll wfd size wait cb q pd).dispatched,
      cb c.1 c.2 = some er) ∨ ∃ j ∈ q, j.result = some er := by
  cases wait with
  | error e1 => simp [pollIterEpoll] at h
  | ok evs =>
    cases hd : (dispatchEpoll wfd cb evs).err with
    | some e2 =>
      have he : e2 = er := by simpa [pollIterEpoll, hd] using h
      subst he
      left
      have hm := dispatchEpoll_err_from_callback wfd cb evs e2 hd
      simpa [pollIterEpoll, hd] using hm
    | none =>
      by_cases hw : (dispatchEpoll wfd cb evs).wake
      · cases hf : (forEach q pd).err with
        | some e2 =>
          have he : e2 = er := by simpa [pollIterEpoll, hd, hw, hf] using h
          subst he
          right
          exact runJobs_err_from_job q e2 (by simpa [forEach] using hf)
        | none => simp [pollIterEpoll, hd, hw, hf] at h
      · simp [pollIterEpoll, hd, hw] at h

theorem pollIterKqueue_err_provenance (size : Nat)
    (wait : Except Nat (List Kevent)) (cb : Nat → Int → Option ε)
    (q pd : List (Job ε)) (er : ε)
    (h : (pollIterKqueue size wait cb q pd).result = some er) :
    (∃ c ∈ (pollIterKqueue size wait cb q pd).dispatched,
      cb c.1 c.2 = some er) ∨ ∃ j ∈ q, j.result = some er := by
  cases wait with
  | error e1 => simp [pollIterKqueue] at h
  | ok evs =>
    cases hd : (dispatchKqueue cb evs).err with
    | some e2 =>
      have he : e2 = er := by simpa [pollIterKqueue, hd] using h
      subst he
      left
      have hm := dispatchKqueue_err_from_callback cb evs e2 hd
      simpa [pollIterKqueue, hd] using hm
    | none =>
      by_cases hw : (dispatchKqueue cb evs).wake
      · cases hf : (forEach q pd).err with
        | some e2 =>
          have he : e2 = er := by simpa [pollIterKqueue, hd, hw, hf] using h
          subst he
          right
          exact runJobs_err_from_job q e2 (by simpa [forEach] using hf)
        | none => simp [pollIterKqueue, hd, hw, hf] at h
      · simp [pollIterKqueue, hd, hw] at h

/-! ### Claim C6 -/

/-- C6: `Polling` never returns because the wait call failed. An iteration
whose wait call errors (EINTR or any other errno) continues the loop with
no observable side effect — nothing dispatched, no drain, no job run, the
capacity and queue unchanged; a schedule made solely of wait errors keeps
the loop running forever; and every value `Polling` does return is an
error produced by the callback on a dispatched event or by a job drained
from the queue. -/
theorem polling_only_callback_or_job_errors (wfd : Int) (size : Nat)
    (e0 : Nat) (cbE : Int → Nat → Option ε) (cbK : Nat → Int → Option ε)
    (q pd : List (Job ε)) (schedE : List (SchedE ε))
    (schedK : List (SchedK ε)) (er : ε)
    (wait : Except Nat (List EpollEvent)) (waitK : Except Nat (List Kevent)) :
    pollIterEpoll wfd size (.error e0) cbE q pd =
      ⟨[], 0, [], false, none, size, q⟩ ∧
    pollIterKqueue size (.error e0) cbK q pd =
      ⟨[], [], false, none, size, q⟩ ∧
    ((∀ s ∈ schedE, ∃ e1, s.wait = Except.error e1) →
      pollingEpoll wfd cbE schedE size q = ⟨[], [], none, size, q⟩) ∧
    ((∀ s ∈ schedK, ∃ e1, s.wait = Except.error e1) →
      pollingKqueue cbK schedK size q = ⟨[], [], none, size, q⟩) ∧
    ((pollIterEpoll wfd size wait cbE q pd).result = some er →
      (∃ c ∈ (pollIterEpoll wfd size wait cbE q pd).dispatched,
        cbE c.1 c.2 = some er) ∨ ∃ j ∈ q, j.result = some er) ∧
    ((pollIterKqueue size waitK cbK q pd).result = some er →
      (∃ c ∈ (pollIterKqueue size waitK cbK q pd).dispatched,
        cbK c.1 c.2 = some er) ∨ ∃ j ∈ q, j.result = some er) :=
  ⟨rfl, rfl,
    fun h => pollingEpoll_all_errors wfd cbE schedE size q h,
    fun h => pollingKqueue_all_errors cbK schedK size q h,
    fun h => pollIterEpoll_err_provenance wfd size wait cbE q pd er h,
    fun h => pollIterKqueue_err_provenance size waitK cbK q pd er h⟩

/-- Witness for C6: an EINTR wait (errno 4) and an EIO wait (errno 5) both
continue the loop untouched, and a callback error 3 on fd 7 is traced back
to a dispatched invocation. -/
theorem polling_only_callback_or_job_errors_witness :
    pollIterEpoll (ε := Nat) 9 128 (.error 4) (fun _ _ => none) [] [] =
      ⟨[], 0, [], false, none, 128, []⟩ ∧
    pollingEpoll (ε := Nat) 9 (fun _ _ => none)
      [⟨.error 4, []⟩, ⟨.error 5, []⟩] 128 [] = ⟨[], [], none, 128, []⟩ ∧
    ((∃ c ∈ (pollIterEpoll (ε := Nat) 9 128 (.ok [⟨7, 1⟩])
        (fun fd _ => if fd = 7 then some 3 else none) [] []).dispatched,
      (fun (fd : Int) (_ : Nat) => if fd = 7 then some 3 else none)
        c.1 c.2 = some 3) ∨
      ∃ j ∈ ([] : List (Job Nat)), j.result = some 3) := by
  have h := polling_only_callback_or_job_errors (ε := Nat) 9 128 4
      (fun fd _ => if fd = 7 then some 3 else none) (fun _ _ => none)
      [] [] [⟨.error 4, []⟩, ⟨.error 5, []⟩] [] 3
      (.ok [⟨7, 1⟩]) (.error 4)
  have h2 := polling_only_callback_or_job_errors (ε := Nat) 9 128 4
      (fun _ _ => none) (fun _ _ => none)
      [] [] [⟨.error 4, []⟩, ⟨.error 5, []⟩] [] 3
      (.ok [⟨7, 1⟩]) (.error 4)
  refine ⟨h2.1, h2.2.2.1 ?_, h.2.2.2.2.1 (by decide)⟩
  intro s hs
  rcases (by simpa using hs : s = ⟨.error 4, []⟩ ∨ s = ⟨.error 5, []⟩) with
    rfl | rfl
  · exact ⟨4, rfl⟩
  · exact ⟨5, rfl⟩

/-! ### Claim C7 -/

/-- C7: on the kqueue backend, a record whose flags include `EV_EOF` or
`EV_ERROR` is dispatched to the callback with filter `EVFilterSock`, a
value distinct from `EVFILT_READ` and `EVFILT_WRITE`, regardless of the
filter the record carried; a record without those flags passes its
original filter through unchanged; and a dispatched record's callback
always receives `keventOutFilter` of the record. -/
theorem kqueue_filter_normalization (e : Kevent) (cb : Nat → Int → Option ε) :
    (e.flags &&& EV_EOF ≠ 0 ∨ e.flags &&& EV_ERROR ≠ 0 →
      keventOutFilter e = EVFilterSock) ∧
    (e.flags &&& EV_EOF = 0 ∧ e.flags &&& EV_ERROR = 0 →
      keventOutFilter e = e.filter) ∧
    EVFilterSock ≠ EVFILT_READ ∧ EVFilterSock ≠ EVFILT_WRITE ∧
    (e.ident ≠ 0 →
      (dispatchKqueue cb [e]).calls = [(e.ident, keventOutFilter e)]) := by
  refine ⟨?_, ?_, by decide, by decide, ?_⟩
  · intro h
    unfold keventOutFilter
    rw [if_pos h]
  · intro h
    unfold keventOutFilter
    rw [if_neg (by simp [h.1, h.2])]
  · intro hid
    cases hcb : cb e.ident (keventOutFilter e) with
    | some er => simp [dispatchKqueue, hid, hcb]
    | none => simp [dispatchKqueue, hid, hcb]

/-- Witness for C7: an `EVFILT_READ` record with `EV_EOF` set is dispatched
with filter `EVFilterSock`; without flags its filter passes through. -/
theorem kqueue_filter_normalization_witness :
    keventOutFilter ⟨5, EVFILT_READ, 0x8000⟩ = EVFilterSock ∧
    keventOutFilter ⟨5, EVFILT_WRITE, 0⟩ = EVFILT_WRITE ∧
    (dispatchKqueue (fun _ _ => (none : Option Nat))
      [⟨5, EVFILT_READ, 0x8000⟩]).calls = [(5, EVFilterSock)] := by
  have h := kqueue_filter_normalization (ε := Nat) ⟨5, EVFILT_READ, 0x8000⟩
      (fun _ _ => none)
  have h2 := kqueue_filter_normalization (ε := Nat) ⟨5, EVFILT_WRITE, 0⟩
      (fun _ _ => none)
  refine ⟨h.1 (by decide), h2.2.1 (by decide), ?_⟩
  rw [h.2.2.2.2 (by decide), h.1 (by decide)]

/-! ### Claim C8 -/

/-- C8: `Delete(fd)` on the epoll backend performs exactly one
`EPOLL_CTL_DEL` syscall on the epoll fd and returns its result; on the
kqueue backend it performs no syscall, always returns nil and leaves the
poller state unchanged. -/
theorem delete_epoll_ctl_kqueue_noop (epfd fd : Int) (ctlRes : Option Nat)
    (q : List (Job ε)) :
    deleteEpoll epfd fd ctlRes =
      ([Syscall.epollCtl epfd EPOLL_CTL_DEL fd], ctlRes) ∧
    deleteKqueue fd q = (q, [], none) :=
  ⟨rfl, rfl⟩

/-! ### Claim C9 -/

/-- C9: `Close` on the epoll backend closes the wake fd and then the epoll
fd (both closed whenever it succeeds); on the kqueue backend it closes
only the kqueue fd; on both backends every close issued targets a handle
owned by the poller, never a caller-registered descriptor. -/
theorem close_closes_owned_handles_only (wfd fd : Int) (cw cf : Option Nat) :
    ((closeEpoll wfd fd cw cf).2 = none →
      (closeEpoll wfd fd cw cf).1 = [Syscall.close wfd, Syscall.close fd]) ∧
    (∀ s ∈ (closeEpoll wfd fd cw cf).1,
      s = Syscall.close wfd ∨ s = Syscall.close fd) ∧
    (closeKqueue fd cf).1 = [Syscall.close fd] ∧
    (∀ s ∈ (closeKqueue fd cf).1, s = Syscall.close fd) := by
  cases cw <;> simp [closeEpoll, closeKqueue]

/-- Witness for C9: a successful close of the poller with wake fd 4 and
epoll fd 3 closes exactly those two, in that order. -/
theorem close_closes_owned_handles_only_witness :
    (closeEpoll 4 3 none none).1 = [Syscall.close 4, Syscall.close 3] ∧
    (closeKqueue 3 none).1 = [Syscall.close 3] :=
  ⟨(close_closes_owned_handles_only 4 3 none none).1 rfl,
    (close_closes_owned_handles_only 4 3 none none).2.2.1⟩

/-! ### Claim C10 -/

/-- C10: no callback invocation ever carries the wake identifier. On the
epoll backend every dispatched fd differs from the wake fd; on the kqueue
backend every dispatched identifier differs from 0, and a record with
identifier 0 — whatever descriptor it came from — is consumed as a wake
notification (sets `wakenUp`, dispatches nothing). -/
theorem callback_never_sees_wake_id (wfd : Int) (size : Nat)
    (wait : Except Nat (List EpollEvent)) (waitK : Except Nat (List Kevent))
    (cbE : Int → Nat → Option ε) (cbK : Nat → Int → Option ε)
    (q pd : List (Job ε)) (e : Kevent) (rest : List Kevent) :
    (∀ c ∈ (pollIterEpoll wfd size wait cbE q pd).dispatched, c.1 ≠ wfd) ∧
    (∀ c ∈ (pollIterKqueue size waitK cbK q pd).dispatched, c.1 ≠ 0) ∧
    (e.ident = 0 →
      dispatchKqueue cbK (e :: rest) =
        ⟨(dispatchKqueue cbK rest).calls, true,
          (dispatchKqueue cbK rest).err⟩) := by
  refine ⟨?_, ?_, ?_⟩
  · cases wait with
    | error e1 => simp [pollIterEpoll]
    | ok evs =>
      intro c hc
      have hsub : c ∈ (dispatchEpoll wfd cbE evs).calls := by
        cases hd : (dispatchEpoll wfd cbE evs).err with
        | some e2 => simpa [pollIterEpoll, hd] using hc
        | none =>
          by_cases hw : (dispatchEpoll wfd cbE evs).wake
          · cases hf : (forEach q pd).err with
            | some e2 => simpa [pollIterEpoll, hd, hw, hf] using hc
            | none => simpa [pollIterEpoll, hd, hw, hf] using hc
          · simpa [pollIterEpoll, hd, hw] using hc
      exact dispatchEpoll_calls_ne_wfd wfd cbE evs c hsub
  · cases waitK with
    | error e1 => simp [pollIterKqueue]
    | ok evs =>
      intro c hc
      have hsub : c ∈ (dispatchKqueue cbK evs).calls := by
        cases hd : (dispatchKqueue cbK evs).err with
        | some e2 => simpa [pollIterKqueue, hd] using hc
        | none =>
          by_cases hw : (dispatchKqueue cbK evs).wake
          · cases hf : (forEach q pd).err with
            | some e2 => simpa [pollIterKqueue, hd, hw, hf] using hc
            | none => simpa [pollIterKqueue, hd, hw, hf] using hc
          · simpa [pollIterKqueue, hd, hw] using hc
      exact dispatchKqueue_calls_ne_zero cbK evs c hsub
  · intro hid
    simp [dispatchKqueue, hid]

/-- Witness for C10: with wake fd 9, the dispatched record (5, 1) has
`5 ≠ 9`; on kqueue the dispatched record (5, -1) has `5 ≠ 0`, and a
zero-identifier record (a registered descriptor 0 included) dispatches
nothing and sets the wake flag. -/
theorem callback_never_sees_wake_id_witness :
    ((5 : Int) ≠ 9) ∧ ((5 : Nat) ≠ 0) ∧
    dispatchKqueue (fun _ _ => (none : Option Nat)) [⟨0, EVFILT_READ, 0⟩] =
      ⟨[], true, none⟩ := by
  have h := callback_never_sees_wake_id (ε := Nat) 9 128
      (.ok [⟨9, 1⟩, ⟨5, 1⟩]) (.ok [⟨0, -10, 0⟩, ⟨5, -1, 0⟩])
      (fun _ _ => none) (fun _ _ => none) [] [] ⟨0, EVFILT_READ, 0⟩ []
  refine ⟨h.1 (5, 1) (by decide), h.2.1 (5, -1) (by decide), ?_⟩
  exact h.2.2 rfl

/-! ### Claim C3 -/

/-- C3 fails on the code: when `OpenPoller` has created handles and a later
registration step fails, the already-created handles are NOT closed. With
epoll fd 3 and wake fd 4 created and the `AddRead` registration failing
with errno 9, `OpenPoller` returns the error with no close of 3 or 4 in
the trace; with kqueue fd 5 created and the user-filter `Kevent` failing
with errno 9, fd 5 is likewise not closed. By contrast, the epoll backend
does close fd 3 when the eventfd creation fails (errno 24), which shows
the intent the registration-failure paths miss. -/
theorem openPoller_registration_failure_leaks :
    (openPollerEpoll (.ok 3) (.ok 4) (some 9)).2 = .error 9 ∧
    Syscall.close 3 ∉ (openPollerEpoll (.ok 3) (.ok 4) (some 9)).1 ∧
    Syscall.close 4 ∉ (openPollerEpoll (.ok 3) (.ok 4) (some 9)).1 ∧
    (openPollerKqueue (.ok 5) (some 9)).2 = .error 9 ∧
    Syscall.close 5 ∉ (openPollerKqueue (.ok 5) (some 9)).1 ∧
    Syscall.close 3 ∈ (openPollerEpoll (.ok 3) (.error 24) none).1 :=
  ⟨rfl, by decide, by decide, rfl, by decide, by decide⟩

end Netpoll
